import Mathlib

/-!
Verification of the airline canvas-animation crate (`src/lib.rs`).

Modelling conventions (shallow embedding):
* `f64` coordinate values are modelled as exact rationals `ℚ` (the geometry
  claims are about the arithmetic structure of the code, stated over exact
  arithmetic).
* `f32` progress values are modelled as `F32 := Option ℚ`, where `none`
  stands for NaN; `Option.partialCmp`-style comparison mirrors Rust's
  `PartialOrd::partial_cmp`, which returns `None` when either operand is NaN.
  Division by zero is conflated with `none` (the divisors appearing in the
  code are the nonzero constants `0.8` and `0.5`, so this never matters).
* The canvas rendering context is modelled by the trace of drawing commands a
  call issues; fallible gradient creation (`create_radial_gradient` in
  `web-sys` returns `Result`) is modelled by a boolean capability `radialOk`
  of the context, and a failing call returns `Except.error ()` carrying no
  commands, mirroring the `?` early return.
* Colors are kept symbolic: `HSL.as_str` produces the structured content of
  the `hsl(H, S%, L%)` string rather than the formatted text.
-/

namespace Airline

/-- Planar position, `struct Position { x: f64, y: f64 }` (lib.rs lines 61-64). -/
structure Position where
  x : ℚ
  y : ℚ
deriving DecidableEq

/-- The `u8` hue together with `f32` saturation and lightness:
`pub struct HSL (u8, f32, f32)` (lib.rs line 82). The hue field is a `u8`,
hence an integer in `0..=255`, modelled as `Fin 256`. -/
structure HSL where
  hue : Fin 256
  saturation : ℚ
  lightness : ℚ
deriving DecidableEq

/-- `HSL::new` (lib.rs lines 86-88). -/
def HSL.new (hue : Fin 256) (saturation lightness : ℚ) : HSL :=
  ⟨hue, saturation, lightness⟩

/-- Symbolic color value produced for the canvas: either the literal
`"transparent"` or the content of the `hsl(H, S%, L%)` string. -/
inductive ColorStr where
  | transparent
  | hsl (hue : Fin 256) (saturationPct lightnessPct : ℚ)
deriving DecidableEq

/-- `HSL::as_str` (lib.rs lines 92-94): formats `hsl({hue}, {sat*100}%, {light*100}%)`. -/
def HSL.as_str (c : HSL) : ColorStr :=
  ColorStr.hsl c.hue (c.saturation * 100) (c.lightness * 100)

/-- An `f32` value: `some q` is the finite value `q`, `none` is NaN. -/
abbrev F32 := Option ℚ

/-- Total comparison of two rationals, the value of `partial_cmp` on two
non-NaN floats. -/
def cmpQ (a b : ℚ) : Ordering :=
  if a < b then Ordering.lt else if b < a then Ordering.gt else Ordering.eq

/-- Rust's `PartialOrd::partial_cmp` on `f32`: `None` when either side is NaN. -/
def partialCmp : F32 → F32 → Option Ordering
  | some a, some b => some (cmpQ a b)
  | _, _ => none

/-- `f32` subtraction; any NaN operand poisons the result. -/
def fsub : F32 → F32 → F32
  | some a, some b => some (a - b)
  | _, _ => none

/-- `f32` addition; any NaN operand poisons the result. -/
def fadd : F32 → F32 → F32
  | some a, some b => some (a + b)
  | _, _ => none

/-- `f32` division. A NaN operand poisons the result; division by zero is
also sent to `none` (the model has no infinities — every divisor in the
embedded code is a nonzero constant, so this case is never reached). -/
def fdiv : F32 → F32 → F32
  | some a, some b => if b = 0 then none else some (a / b)
  | _, _ => none

/-- Extracts the rational payload of a non-NaN `f32`; the default `0` for
NaN is never relevant because every use site receives the output of
`normalize_process`, which is never NaN (`normalize_process_ne_none`). -/
def toRat : F32 → ℚ
  | some q => q
  | none => 0

/-- `normalize_process` (lib.rs lines 217-225): saturate the progress into
`[0, 1]` with the exact branch structure of the source —
`if 0.0 < number { if 1.0 > number { number } else { 1.0 } } else { 0.0 }`,
each comparison made through `partial_cmp`. -/
def normalize_process (number : F32) : F32 :=
  if partialCmp (some 0) number = some Ordering.lt then
    if partialCmp (some 1) number = some Ordering.gt then
      number
    else
      some 1
  else
    some 0

/-- `get_control_position` (lib.rs lines 141-146). -/
def get_control_position (from_ to_ : Position) (curveness : ℚ) : Position :=
  { x := (from_.x + to_.x) / 2 - (from_.y - to_.y) * curveness
    y := (from_.y + to_.y) / 2 - (from_.x - to_.x) * curveness }

/-- `get_curveness` (lib.rs lines 148-153):
`if from.y.partial_cmp(&to_.y) == Some(Ordering::Less) { 0.4 } else { -0.4 }`.
The `f64` coordinates are non-NaN rationals in the model, so `partial_cmp`
is `some (cmpQ _ _)`. -/
def get_curveness (from_ to_ : Position) : ℚ :=
  if partialCmp (some from_.y) (some to_.y) = some Ordering.lt then 0.4 else -0.4

/-- The early-exit test of `draw_part_of_curve_path` (lib.rs line 169):
`1.0.partial_cmp(&percent) == Some(Ordering::Less)`, i.e. `1.0 < percent`,
a strict comparison. -/
def curve_done_guard (percent : ℚ) : Bool :=
  decide (partialCmp (some 1) (some percent) = some Ordering.lt)

/-- `draw_part_of_curve_path` (lib.rs lines 165-199): two-stage de
Casteljau interpolation on the quadratic Bezier with the source's early
return. The `f32` progress is modelled as a rational: every call site
passes `percent_head`, an output of `normalize_process`, which is never
NaN. The function issues no drawing commands (its `ctx` parameter is
unused in the source body). -/
def draw_part_of_curve_path (from_ to_ : Position) (curveness : ℚ) (percent : ℚ) :
    Position × Position :=
  let cp := get_control_position from_ to_ curveness
  if curve_done_guard percent then
    (cp, ⟨to_.x, to_.y⟩)
  else
    let t := percent
    let p0 := from_
    let p1 := cp
    let p2 := to_
    let v01 : ℚ × ℚ := (p1.x - p0.x, p1.y - p0.y)
    let v12 : ℚ × ℚ := (p2.x - p1.x, p2.y - p1.y)
    let q0 : Position := ⟨p0.x + v01.1 * t, p0.y + v01.2 * t⟩
    let q1 : Position := ⟨p1.x + v12.1 * t, p1.y + v12.2 * t⟩
    let v : ℚ × ℚ := (q1.x - q0.x, q1.y - q0.y)
    let b : Position := ⟨q0.x + v.1 * t, q0.y + v.2 * t⟩
    (q0, b)

/-- A fill or stroke style handed to the canvas: a solid color, or a
radial/linear gradient with its geometry and color stops (stop offsets are
`f32`). -/
inductive Style where
  | solid (c : ColorStr)
  | radial (x0 y0 r0 x1 y1 r1 : ℚ) (stops : List (F32 × ColorStr))
  | linear (x0 y0 x1 y1 : ℚ) (stops : List (F32 × ColorStr))
deriving DecidableEq

/-- One drawing command issued against the canvas context. -/
inductive Cmd where
  /-- `set_fill_style(style); fill_rect(x, y, w, h)` — the third and fourth
  canvas arguments are the rectangle WIDTH and HEIGHT. -/
  | fillRect (style : Style) (x y w h : ℚ)
  /-- `begin_path; set_fill_style(style); arc(x, y, r, 0, 2π); close_path; fill`. -/
  | fillArc (style : Style) (x y r : ℚ)
  /-- `move_to(x0, y0); quadratic_curve_to(cx, cy, x1, y1);
  set_line_width(w); set_stroke_style(style); stroke`. -/
  | strokeQuad (style : Style) (x0 y0 cx cy x1 y1 w : ℚ)
deriving DecidableEq

/-- `draw_head_of_curve_path` (lib.rs lines 156-162): fill a disc of the
given radius at `from` in the route color. -/
def draw_head_of_curve_path (from_ : Position) (color : HSL) (radius : ℚ) : List Cmd :=
  [Cmd.fillArc (Style.solid color.as_str) from_.x from_.y radius]

/-- `draw_hola` (lib.rs lines 202-214): scale the radius by the phase,
create a radial gradient (fallible: `radialOk` is the context's ability to
create it, and on failure the `?` aborts before anything is drawn), add the
three color stops, and `fill_rect(pos.x - radius, pos.y - radius,
pos.x + radius, pos.y + radius)` — note the last two arguments are passed
to the canvas as width and height. The `f32` phase is modelled as a
rational: every caller passes `percent_hola`, never NaN. -/
def draw_hola (radialOk : Bool) (pos : Position) (color : HSL) (radius : ℚ)
    (percent : ℚ) : Except Unit (List Cmd) :=
  let radius := radius * percent
  if radialOk then
    let gradient := Style.radial pos.x pos.y 0 pos.x pos.y radius
      [(some 0, ColorStr.transparent), (some 0.95, color.as_str),
        (some 1, ColorStr.transparent)]
    Except.ok [Cmd.fillRect gradient (pos.x - radius) (pos.y - radius)
      (pos.x + radius) (pos.y + radius)]
  else
    Except.error ()

/-- `move_percent` (lib.rs line 233). -/
def move_percent : F32 := some 0.5

/-- `length_of_curve` (lib.rs line 234). -/
def length_of_curve : F32 := some 0.3

/-- `percent_head` (lib.rs line 236): `normalize_process(percent / move_percent)`. -/
def percent_head (percent : F32) : F32 :=
  normalize_process (fdiv percent move_percent)

/-- `percent_curve` (lib.rs line 237):
`normalize_process(percent - length_of_curve) / (move_percent + length_of_curve)`. -/
def percent_curve (percent : F32) : F32 :=
  fdiv (normalize_process (fsub percent length_of_curve)) (fadd move_percent length_of_curve)

/-- `percent_hola` (lib.rs line 238):
`normalize_process(percent - move_percent) / (1.0 - move_percent)`. -/
def percent_hola (percent : F32) : F32 :=
  fdiv (normalize_process (fsub percent move_percent)) (fsub (some 1) move_percent)

/-- `RADIUS` (lib.rs line 227). -/
def RADIUS : ℚ := 20

/-- `draw_air_line` (lib.rs lines 231-264): compute the three phases, the
head/near points, draw the halo (whose gradient creation may fail and then
aborts the whole call via `?`), the head disc, and — when
`0.0.partial_cmp(&percent_head) == Some(Ordering::Less)` — the gradient
tail stroke. Returns the trace of issued commands, or `Except.error` when
radial-gradient creation failed (nothing has been drawn at that point). -/
def draw_air_line (radialOk : Bool) (from_ to_ : Position) (color : HSL)
    (curveness : ℚ) (percent : F32) : Except Unit (List Cmd) :=
  let ph := percent_head percent
  let pc := percent_curve percent
  let po := percent_hola percent
  let qb := draw_part_of_curve_path from_ to_ curveness (toRat ph)
  let q0 := qb.1
  let b := qb.2
  match draw_hola radialOk b color RADIUS (toRat po) with
  | Except.error e => Except.error e
  | Except.ok holaCmds =>
      let headCmds := draw_head_of_curve_path b color 2
      let tailCmds :=
        if partialCmp (some 0) ph = some Ordering.lt then
          [Cmd.strokeQuad
            (Style.linear from_.x from_.y b.x b.y
              [(pc, ColorStr.transparent), (some 1, color.as_str)])
            from_.x from_.y q0.x q0.y b.x b.y 3]
        else
          []
      Except.ok (holaCmds ++ headCmds ++ tailCmds)

/-! Basic facts about the comparison and normalization helpers. -/

theorem cmpQ_eq_lt {a b : ℚ} : cmpQ a b = Ordering.lt ↔ a < b := by
  unfold cmpQ
  split_ifs with h1 h2
  · simp [h1]
  · simp only [reduceCtorEq, false_iff]; exact h1
  · simp only [reduceCtorEq, false_iff]; exact h1

theorem cmpQ_eq_gt {a b : ℚ} : cmpQ a b = Ordering.gt ↔ b < a := by
  unfold cmpQ
  split_ifs with h1 h2
  · simp only [reduceCtorEq, false_iff]; linarith
  · simp [h2]
  · simp only [reduceCtorEq, false_iff]; exact h2

theorem partialCmp_some_some (a b : ℚ) : partialCmp (some a) (some b) = some (cmpQ a b) :=
  rfl

theorem toRat_some (q : ℚ) : toRat (some q) = q :=
  rfl

theorem normalize_process_some (q : ℚ) :
    normalize_process (some q) =
      some (if 0 < q then (if q < 1 then q else 1) else 0) := by
  unfold normalize_process partialCmp
  by_cases h0 : 0 < q
  · by_cases h1 : q < 1
    · rw [if_pos (by simp [cmpQ_eq_lt, h0]), if_pos (by simp [cmpQ_eq_gt, h1]),
        if_pos h0, if_pos h1]
    · rw [if_pos (by simp [cmpQ_eq_lt, h0]), if_neg (by simp [cmpQ_eq_gt, h1]),
        if_pos h0, if_neg h1]
  · rw [if_neg (by simp [cmpQ_eq_lt, h0]), if_neg h0]

theorem normalize_process_none : normalize_process none = some 0 := by
  unfold normalize_process partialCmp
  simp

theorem normalize_process_ne_none (x : F32) : normalize_process x ≠ none := by
  cases x with
  | none => rw [normalize_process_none]; simp
  | some q =>
      rw [normalize_process_some]
      simp

theorem normalize_process_mem_unit (q : ℚ) :
    0 ≤ toRat (normalize_process (some q)) ∧ toRat (normalize_process (some q)) ≤ 1 := by
  rw [normalize_process_some, toRat_some]
  split_ifs with h0 h1 <;> constructor <;> linarith

theorem curve_done_guard_iff (p : ℚ) : curve_done_guard p = true ↔ 1 < p := by
  unfold curve_done_guard
  rw [decide_eq_true_iff, partialCmp_some_some, Option.some_inj, cmpQ_eq_lt]

theorem fsub_some_some (a b : ℚ) : fsub (some a) (some b) = some (a - b) :=
  rfl

theorem fadd_some_some (a b : ℚ) : fadd (some a) (some b) = some (a + b) :=
  rfl

theorem fdiv_some_some (a b : ℚ) (hb : b ≠ 0) : fdiv (some a) (some b) = some (a / b) := by
  simp only [fdiv]
  rw [if_neg hb]

/-! The claims. -/

/-- C1 (code defect): the early-exit test of `draw_part_of_curve_path`
(line 169) is the strict comparison `1.0 < percent`, so at `percent = 1.0`
it is false and the two-stage interpolation is executed rather than
skipped, contrary to the skip-at-arrival behavior described by the
source's own comment (line 168) and the specification; the guard fires
only for progress strictly greater than 1. The last conjunct evaluates
the function at the failing input `t = 1`. -/
theorem curve_done_guard_strict_at_one :
    curve_done_guard 1 = false ∧ curve_done_guard (11/10) = true ∧
    draw_part_of_curve_path ⟨0, 0⟩ ⟨10, 10⟩ 0.4 1 = (⟨9, 9⟩, ⟨10, 10⟩) := by
  have hg : curve_done_guard 1 = false := by
    rw [Bool.eq_false_iff, ne_eq, curve_done_guard_iff]
    norm_num
  refine ⟨hg, by rw [curve_done_guard_iff]; norm_num, ?_⟩
  simp only [draw_part_of_curve_path, hg, Bool.false_eq_true, if_false, get_control_position]
  norm_num [Prod.ext_iff, Position.mk.injEq]

/-- C2 (code defect): at head position `(100, 100)`, route color
`HSL(128, 1.0, 0.5)`, base radius `20` and afterglow phase `1`, the radial
gradient is as described (centered at the head, inner radius 0, outer
radius `20 * 1`, stops 0 → transparent, 0.95 → route color,
1 → transparent), but the rectangle handed to `fill_rect` is
`(x, y, w, h) = (80, 80, 120, 120)`: the width and height arguments are
`pos.x + radius` and `pos.y + radius`, not the bounding square's side
`2 * radius = 40`. -/
theorem draw_hola_rect_not_bounding_square :
    draw_hola true ⟨100, 100⟩ ⟨128, 1, 1/2⟩ 20 1 =
      Except.ok [Cmd.fillRect
        (Style.radial 100 100 0 100 100 20
          [(some 0, ColorStr.transparent), (some 0.95, ColorStr.hsl 128 100 50),
            (some 1, ColorStr.transparent)])
        80 80 120 120] ∧
    (120 : ℚ) ≠ 2 * 20 := by
  refine ⟨?_, by norm_num⟩
  norm_num [draw_hola, HSL.as_str]

/-- C4: `normalize_process` returns its input unchanged when `0 < x < 1`,
returns 1 when `x ≥ 1`, and returns 0 when `x ≤ 0`. -/
theorem normalize_process_saturates (q : ℚ) :
    ((0 < q ∧ q < 1) → normalize_process (some q) = some q) ∧
    (1 ≤ q → normalize_process (some q) = some 1) ∧
    (q ≤ 0 → normalize_process (some q) = some 0) := by
  refine ⟨fun h => ?_, fun h => ?_, fun h => ?_⟩ <;> rw [normalize_process_some]
  · rw [if_pos h.1, if_pos h.2]
  · rw [if_pos (by linarith), if_neg (by linarith)]
  · rw [if_neg (by linarith)]

/-- Witness for C4 at the inputs 1/2 (interior), 2 (above), and -1 (below). -/
theorem normalize_process_saturates_witness :
    normalize_process (some (1/2)) = some (1/2) ∧
    normalize_process (some 2) = some 1 ∧
    normalize_process (some (-1)) = some 0 :=
  ⟨(normalize_process_saturates (1/2)).1 (by norm_num),
    (normalize_process_saturates 2).2.1 (by norm_num),
    (normalize_process_saturates (-1)).2.2 (by norm_num)⟩

/-- C5: `get_curveness` is 0.4 exactly when `from.y < to.y` and -0.4
otherwise; in particular equal y coordinates yield -0.4. -/
theorem get_curveness_sign (from_ to_ : Position) :
    (get_curveness from_ to_ = if from_.y < to_.y then (0.4 : ℚ) else -0.4) ∧
    (from_.y = to_.y → get_curveness from_ to_ = -0.4) := by
  constructor
  · unfold get_curveness
    rw [partialCmp_some_some]
    by_cases h : from_.y < to_.y
    · rw [if_pos (by simp [cmpQ_eq_lt, h]), if_pos h]
    · rw [if_neg (by simp [cmpQ_eq_lt, h]), if_neg h]
  · intro h
    unfold get_curveness
    rw [partialCmp_some_some, if_neg (by simp [cmpQ_eq_lt, h])]

/-- Witness for C5 at two positions with equal y coordinate. -/
theorem get_curveness_sign_witness :
    get_curveness ⟨0, 5⟩ ⟨1, 5⟩ = -0.4 :=
  (get_curveness_sign ⟨0, 5⟩ ⟨1, 5⟩).2 rfl

/-- C6: swapping the endpoints while negating the curveness leaves the
control point unchanged. -/
theorem get_control_position_swap_neg (A B : Position) (c : ℚ) :
    get_control_position A B c = get_control_position B A (-c) := by
  unfold get_control_position
  simp only [Position.mk.injEq]
  constructor <;> ring

/-- C8: when radial-gradient creation fails, `draw_air_line` propagates the
error and its command trace is empty — in particular neither the head disc
nor the tail stroke is issued after the failure. -/
theorem draw_air_line_error_aborts (from_ to_ : Position) (color : HSL)
    (curveness : ℚ) (percent : F32) :
    draw_air_line false from_ to_ color curveness percent = Except.error () :=
  rfl

/-- C9 (code defect): the hue field of `HSL` is a `u8`, so no color with
hue 300 — or any hue in `256..=360` — can exist, although the
specification and the struct's own doc comment (lib.rs line 76) give the
hue range as 0 - 360. -/
theorem hsl_hue_cannot_reach_300 : ¬ ∃ c : HSL, (c.hue : ℕ) = 300 := by
  rintro ⟨c, h⟩
  have hlt := c.hue.isLt
  omega

/-- C10: `normalize_process` is total and never NaN: both guarding
comparisons against NaN are incomparable (`partial_cmp` returns `None`), so
a NaN input falls through to 0; and every result is 0, 1, or a strictly
interior input returned unchanged. -/
theorem normalize_process_total_never_nan :
    (∀ x : F32, normalize_process x ≠ none) ∧
    (partialCmp (some 0) none = none ∧ partialCmp (some 1) none = none) ∧
    normalize_process none = some 0 ∧
    (∀ x : F32, normalize_process x = some 0 ∨ normalize_process x = some 1 ∨
      (∃ q : ℚ, x = some q ∧ 0 < q ∧ q < 1 ∧ normalize_process x = x)) := by
  refine ⟨normalize_process_ne_none, ⟨rfl, rfl⟩, normalize_process_none, fun x => ?_⟩
  cases x with
  | none => exact Or.inl normalize_process_none
  | some q =>
      by_cases h0 : 0 < q
      · by_cases h1 : q < 1
        · exact Or.inr (Or.inr ⟨q, rfl, h0, h1,
            by rw [normalize_process_some, if_pos h0, if_pos h1]⟩)
        · exact Or.inr (Or.inl (by rw [normalize_process_some, if_pos h0, if_neg h1]))
      · exact Or.inl (by rw [normalize_process_some, if_neg h0])

/-- C3: for master progress `percent ∈ [0, 1)`, the three sub-phase values
computed in `draw_air_line` — `percent_head = normalize(percent / 0.5)`,
`percent_curve = normalize(percent - 0.3) / (0.5 + 0.3)` and
`percent_hola = normalize(percent - 0.5) / (1 - 0.5)` — are non-NaN values
in the closed interval `[0, 1]`. -/
theorem phases_in_unit_interval (p : ℚ) (h0 : 0 ≤ p) (h1 : p < 1) :
    (∃ a : ℚ, percent_head (some p) = some a ∧ 0 ≤ a ∧ a ≤ 1) ∧
    (∃ a : ℚ, percent_curve (some p) = some a ∧ 0 ≤ a ∧ a ≤ 1) ∧
    (∃ a : ℚ, percent_hola (some p) = some a ∧ 0 ≤ a ∧ a ≤ 1) := by
  refine ⟨?_, ?_, ?_⟩
  · obtain ⟨hle, hge⟩ := normalize_process_mem_unit (p / 0.5)
    refine ⟨toRat (normalize_process (some (p / 0.5))), ?_, hle, hge⟩
    unfold percent_head move_percent
    rw [fdiv_some_some p 0.5 (by norm_num), normalize_process_some, toRat_some]
  · unfold percent_curve move_percent length_of_curve
    rw [fsub_some_some, fadd_some_some, normalize_process_some]
    have h08 : (0.5 : ℚ) + 0.3 ≠ 0 := by norm_num
    rw [fdiv_some_some _ _ h08]
    refine ⟨_, rfl, ?_, ?_⟩
    · have : (0 : ℚ) ≤ if 0 < p - 0.3 then (if p - 0.3 < 1 then p - 0.3 else 1) else 0 := by
        split_ifs <;> linarith
      positivity
    · rw [div_le_one (by norm_num)]
      split_ifs <;> linarith
  · unfold percent_hola move_percent
    rw [fsub_some_some, fsub_some_some, normalize_process_some]
    have h05 : (1 : ℚ) - 0.5 ≠ 0 := by norm_num
    rw [fdiv_some_some _ _ h05]
    refine ⟨_, rfl, ?_, ?_⟩
    · have : (0 : ℚ) ≤ if 0 < p - 0.5 then (if p - 0.5 < 1 then p - 0.5 else 1) else 0 := by
        split_ifs <;> linarith
      positivity
    · rw [div_le_one (by norm_num)]
      split_ifs <;> linarith

/-- Witness for C3 at progress 1/4. -/
theorem phases_in_unit_interval_witness :
    (0 : ℚ) ≤ 1/4 ∧ (1/4 : ℚ) < 1 ∧
    ((∃ a : ℚ, percent_head (some (1/4)) = some a ∧ 0 ≤ a ∧ a ≤ 1) ∧
      (∃ a : ℚ, percent_curve (some (1/4)) = some a ∧ 0 ≤ a ∧ a ≤ 1) ∧
      (∃ a : ℚ, percent_hola (some (1/4)) = some a ∧ 0 ≤ a ∧ a ≤ 1)) :=
  ⟨by norm_num, by norm_num,
    phases_in_unit_interval (1/4) (by norm_num) (by norm_num)⟩

/-- C7: in a successful `draw_air_line` call, the quadratic tail stroke —
from the start position through the near point to the head point, with a
linear gradient along the same chord whose stops are
`percent_curve → transparent` and `1 → route color` — is in the issued
command trace exactly when the head phase is strictly positive. -/
theorem tail_stroke_iff_head_phase_pos (from_ to_ : Position) (color : HSL)
    (curveness : ℚ) (percent : F32) (cmds : List Cmd)
    (h : draw_air_line true from_ to_ color curveness percent = Except.ok cmds) :
    (Cmd.strokeQuad
        (Style.linear from_.x from_.y
          (draw_part_of_curve_path from_ to_ curveness (toRat (percent_head percent))).2.x
          (draw_part_of_curve_path from_ to_ curveness (toRat (percent_head percent))).2.y
          [(percent_curve percent, ColorStr.transparent), (some 1, color.as_str)])
        from_.x from_.y
        (draw_part_of_curve_path from_ to_ curveness (toRat (percent_head percent))).1.x
        (draw_part_of_curve_path from_ to_ curveness (toRat (percent_head percent))).1.y
        (draw_part_of_curve_path from_ to_ curveness (toRat (percent_head percent))).2.x
        (draw_part_of_curve_path from_ to_ curveness (toRat (percent_head percent))).2.y
        3 ∈ cmds) ↔
      0 < toRat (percent_head percent) := by
  obtain ⟨hq, hhq⟩ : ∃ q, percent_head percent = some q := by
    cases hh : percent_head percent with
    | none =>
        rw [percent_head] at hh
        exact absurd hh (normalize_process_ne_none _)
    | some q => exact ⟨q, rfl⟩
  simp only [draw_air_line, draw_hola, draw_head_of_curve_path, if_true,
    Except.ok.injEq] at h
  subst h
  by_cases hg : partialCmp (some 0) (percent_head percent) = some Ordering.lt
  · rw [if_pos hg]
    rw [hhq, partialCmp_some_some, Option.some_inj, cmpQ_eq_lt] at hg
    simp [hhq, toRat_some, hg]
  · rw [if_neg hg]
    rw [hhq, partialCmp_some_some, Option.some_inj, cmpQ_eq_lt] at hg
    simp [hhq, toRat_some, hg]

/-- Witness for C7: a concrete successful call (degenerate route from the
origin to itself, progress 1/4, so the head phase is 1/2 > 0) in which the
tail stroke is indeed issued. -/
theorem tail_stroke_iff_head_phase_pos_witness :
    (Cmd.strokeQuad
        (Style.linear 0 0
          (draw_part_of_curve_path ⟨0, 0⟩ ⟨0, 0⟩ 0 (toRat (percent_head (some (1/4))))).2.x
          (draw_part_of_curve_path ⟨0, 0⟩ ⟨0, 0⟩ 0 (toRat (percent_head (some (1/4))))).2.y
          [(percent_curve (some (1/4)), ColorStr.transparent),
            (some 1, HSL.as_str ⟨128, 1, 1/2⟩)])
        0 0
        (draw_part_of_curve_path ⟨0, 0⟩ ⟨0, 0⟩ 0 (toRat (percent_head (some (1/4))))).1.x
        (draw_part_of_curve_path ⟨0, 0⟩ ⟨0, 0⟩ 0 (toRat (percent_head (some (1/4))))).1.y
        (draw_part_of_curve_path ⟨0, 0⟩ ⟨0, 0⟩ 0 (toRat (percent_head (some (1/4))))).2.x
        (draw_part_of_curve_path ⟨0, 0⟩ ⟨0, 0⟩ 0 (toRat (percent_head (some (1/4))))).2.y
        3 ∈
      [Cmd.fillRect
          (Style.radial 0 0 0 0 0 0
            [(some 0, ColorStr.transparent), (some 0.95, ColorStr.hsl 128 100 50),
              (some 1, ColorStr.transparent)])
          0 0 0 0,
        Cmd.fillArc (Style.solid (ColorStr.hsl 128 100 50)) 0 0 2,
        Cmd.strokeQuad
          (Style.linear 0 0 0 0
            [(some 0, ColorStr.transparent), (some 1, ColorStr.hsl 128 100 50)])
          0 0 0 0 0 0 3]) ↔
      0 < toRat (percent_head (some (1/4))) :=
  tail_stroke_iff_head_phase_pos ⟨0, 0⟩ ⟨0, 0⟩ ⟨128, 1, 1/2⟩ 0 (some (1/4))
    [Cmd.fillRect
        (Style.radial 0 0 0 0 0 0
          [(some 0, ColorStr.transparent), (some 0.95, ColorStr.hsl 128 100 50),
            (some 1, ColorStr.transparent)])
        0 0 0 0,
      Cmd.fillArc (Style.solid (ColorStr.hsl 128 100 50)) 0 0 2,
      Cmd.strokeQuad
        (Style.linear 0 0 0 0
          [(some 0, ColorStr.transparent), (some 1, ColorStr.hsl 128 100 50)])
        0 0 0 0 0 0 3]
    (by
      simp only [draw_air_line, draw_hola, draw_head_of_curve_path, draw_part_of_curve_path,
        percent_head, percent_curve, percent_hola, move_percent, length_of_curve,
        fdiv, fsub, fadd, normalize_process, partialCmp, cmpQ, toRat,
        curve_done_guard, get_control_position, RADIUS, HSL.as_str]
      norm_num
      simp)
